import Mathlib

/-!
Verification of the lineage-tracing core of ERDashboard (`src/ERDgenerator.py`):
the expression classifier `parse_column_expression` / `is_calculation_expression`,
the recursive tracer `trace_column`, and the condenser `condense_if_no_calc`.
-/

namespace ERD

/-- Helper for the substring test: does `needle` occur in the haystack list? -/
def containsAux (needle : List Char) : List Char → Bool
  | [] => needle.isEmpty
  | c :: rest => needle.isPrefixOf (c :: rest) || containsAux needle rest

/-- Python's substring test `needle in haystack` on strings. -/
def containsSubstr (haystack needle : String) : Bool :=
  containsAux needle.toList haystack.toList

/-- Python's `str.lower()` (ASCII case folding, the relevant fragment). -/
def pyLower (s : String) : String := String.mk (s.toList.map Char.toLower)

/-- Python's `str.upper()` (ASCII case folding, the relevant fragment). -/
def pyUpper (s : String) : String := String.mk (s.toList.map Char.toUpper)

/-- Python's `str.strip()`: remove leading and trailing whitespace. -/
def pyStrip (s : String) : String :=
  String.mk (((s.toList.dropWhile Char.isWhitespace).reverse.dropWhile
    Char.isWhitespace).reverse)

/-- The fixed keyword list of `is_calculation_expression`. -/
def keywords_calc : List String :=
  ["sum(", "avg(", "min(", "max(", "count(", "case ", " when ", " then ",
   " else ", "distinct("]

/-- `is_calculation_expression(expr)`: the expression contains a calculation
keyword (checked on the lowercased text). -/
def is_calculation_expression (expr : String) : Bool :=
  keywords_calc.any (fun k => containsSubstr (pyLower expr) k)

/-- The clause keywords at which `parse_column_expression` stops collecting
the projection list (compared on the uppercased token text). -/
def clauseKeywords : List String :=
  ["FROM", "WHERE", "GROUP", "ORDER", "HAVING", "LIMIT"]

/-- Whitespace-separated words of a SQL text. Modelled from the spec: the
`sqlparse` tokenisation used by `parse_column_expression` is not part of the
repository; the spec describes the step as isolating "the text between the
SELECT keyword and the next top-level clause keyword", which we realise at
word granularity. -/
def sqlWords (s : String) : List String :=
  (s.toList.splitOnP Char.isWhitespace).map String.mk |>.filter (fun w => w ≠ "")

/-- Words of the projection list: the words strictly between the first
`SELECT` word and the first following clause keyword. `none` when the text
has no `SELECT` word (the statement does not parse into a projection). -/
def projectionWords : List String → Option (List String)
  | [] => none
  | w :: rest =>
    if pyUpper w = "SELECT" then
      some (rest.takeWhile (fun v => pyUpper v ∉ clauseKeywords))
    else
      projectionWords rest

/-- Split a character list at top-level commas (commas not enclosed in
parentheses). Modelled from the spec: this realises the grouped
sub-expressions of the projection list that `sqlparse` yields. -/
def splitTopComma : List Char → Nat → List Char → List (List Char)
  | [], _, cur => [cur.reverse]
  | c :: rest, depth, cur =>
    if c = ',' && depth = 0 then
      cur.reverse :: splitTopComma rest 0 []
    else if c = '(' then
      splitTopComma rest (depth + 1) (c :: cur)
    else if c = ')' then
      splitTopComma rest (depth - 1) (c :: cur)
    else
      splitTopComma rest depth (c :: cur)

/-- The grouped sub-expressions of the projection list of a SQL text
(trimmed, in textual order); empty when no projection list is found. -/
def projectionGroups (view_sql : String) : List String :=
  match projectionWords (sqlWords view_sql) with
  | none => []
  | some ws =>
    (splitTopComma (String.intercalate " " ws).toList 0 []).map
      (fun cs => pyStrip (String.mk cs))

/-- The aliasing marker test of `parse_column_expression`: the lowercased
group text contains `" as "` followed by the lowercased column name. -/
def hasAliasMarker (text col_name : String) : Bool :=
  containsSubstr (pyLower text) (" as " ++ pyLower col_name)

/-- `parse_column_expression(view_sql, col_name)`: find the first grouped
sub-expression of the projection list aliased to `col_name`; classify it with
`is_calculation_expression`. `(none, "")` when nothing matches (NotFound). -/
def parse_column_expression (view_sql col_name : String) : Option Bool × String :=
  match (projectionGroups view_sql).find? (fun g => hasAliasMarker g col_name) with
  | some text => (some (is_calculation_expression text), text)
  | none => (none, "")

/-- Object-definition map: `name -> SQL definition`, as an association list
(first binding wins, mirroring the uniqueness of Python dict keys). -/
abbrev ObjDefMap := List (String × String)

/-- Dependency graph: `parent -> children` items in insertion order,
mirroring `build_simple_graph`'s dict of lists. -/
abbrev Graph := List (String × List String)

/-- Visited set of lowercased `(object, column)` pairs, as a list used as a
set. -/
abbrev Visited := List (String × String)

/-- Python's `obj_def_map.get(start_view, "")`. -/
def lookupDef (defs : ObjDefMap) (name : String) : String :=
  match defs.find? (fun kv => kv.1 = name) with
  | some kv => kv.2
  | none => ""

/-- `[p for p, children in graph.items() if start_view in children]`. -/
def parentsOf (graph : Graph) (v : String) : List String :=
  (graph.filter (fun pc => pc.2.contains v)).map (fun pc => pc.1)

/-- Chain line `* Reached base object '{v}' (no SQL definition).` -/
def baseNoDefLine (v : String) : String :=
  "* Reached base object '" ++ v ++ "' (no SQL definition)."

/-- Chain line `* '{col}' not found in '{v}' => likely a base object.` -/
def notFoundBaseLine (col v : String) : String :=
  "* '" ++ col ++ "' not found in '" ++ v ++ "' => likely a base object."

/-- Chain line `'{col}' not explicitly in '{v}', check parent '{prt}':` -/
def nfNoteLine (col v prt : String) : String :=
  "'" ++ col ++ "' not explicitly in '" ++ v ++ "', check parent '" ++ prt ++ "':"

/-- Chain line `* '{col}' not found in '{v}' and no parent leads to a calc or table.` -/
def nfFallbackLine (col v : String) : String :=
  "* '" ++ col ++ "' not found in '" ++ v ++ "' and no parent leads to a calc or table."

/-- Chain line `* Calculation in '{v}': {snippet.strip()}` -/
def calcLine (v snippet : String) : String :=
  "* Calculation in '" ++ v ++ "': " ++ pyStrip snippet

/-- Chain line `* Column '{col}' pass-through in '{v}'.` -/
def ptLine (col v : String) : String :=
  "* Column '" ++ col ++ "' pass-through in '" ++ v ++ "'."

/-- Chain line `* Reached base object '{v}' (no parent).` -/
def baseNoParentLine (v : String) : String :=
  "* Reached base object '" ++ v ++ "' (no parent)."

/-- Chain line `Column '{col}' pass-through in '{v}' => search its parent(s)` -/
def ptHeaderLine (col v : String) : String :=
  "Column '" ++ col ++ "' pass-through in '" ++ v ++ "' => search its parent(s)"

/-- Chain line `=> parent: '{prt}'` -/
def ptNoteLine (prt : String) : String :=
  "=> parent: '" ++ prt ++ "'"

/-- The note the parent loop prepends: the NotFound branch and the
pass-through branch use different formats. -/
def parentNoteLine (nf : Bool) (col v prt : String) : String :=
  if nf then nfNoteLine col v prt else ptNoteLine prt

/-- The parent loop shared by the NotFound and pass-through branches of
`trace_column`, abstracted over the recursive call `recur`: try each parent in
turn; on the first parent whose recursive trace is non-empty, prepend the
branch's note and stop; thread the visited set through failed attempts.
Returns the empty chain when no parent succeeds. -/
def traceParentsAux (recur : String → Visited → Option (List String × Visited))
    (nf : Bool) (col_name start_view : String) :
    List String → Visited → Option (List String × Visited)
  | [], visited => some ([], visited)
  | prt :: rest, visited =>
    match recur prt visited with
    | none => none
    | some (sub_chain, visited) =>
      if sub_chain = [] then
        traceParentsAux recur nf col_name start_view rest visited
      else
        some (parentNoteLine nf col_name start_view prt :: sub_chain, visited)

/-- Fuel-indexed embedding of `trace_column(col_name, start_view, obj_def_map,
graph, visited)`. The Python recursion terminates because the mutable visited
set grows inside a finite universe of `(object, column)` keys; the fuel makes
that termination explicit, and `graph.length + 2` fuel is proved to always
suffice. The visited set is threaded through and returned, mirroring the
in-place mutation of the shared Python set. -/
def traceFuel : Nat → String → String → ObjDefMap → Graph → Visited →
    Option (List String × Visited)
  | 0, _, _, _, _, _ => none
  | fuel + 1, col_name, start_view, obj_def_map, graph, visited =>
    let key := (pyLower start_view, pyLower col_name)
    if key ∈ visited then some ([], visited)
    else
      let visited := key :: visited
      let view_sql := lookupDef obj_def_map start_view
      if view_sql = "" then some ([baseNoDefLine start_view], visited)
      else
        match parse_column_expression view_sql col_name with
        | (none, _) =>
          let parents := parentsOf graph start_view
          if parents = [] then some ([notFoundBaseLine col_name start_view], visited)
          else
            match traceParentsAux
                (fun prt vis => traceFuel fuel col_name prt obj_def_map graph vis)
                true col_name start_view parents visited with
            | none => none
            | some (chain, visited) =>
              some (if chain = [] then [nfFallbackLine col_name start_view]
                    else chain, visited)
        | (some true, snippet) =>
          some ([calcLine start_view snippet], visited)
        | (some false, _) =>
          let parents := parentsOf graph start_view
          if parents = [] then
            some ([ptLine col_name start_view, baseNoParentLine start_view], visited)
          else
            match traceParentsAux
                (fun prt vis => traceFuel fuel col_name prt obj_def_map graph vis)
                false col_name start_view parents visited with
            | none => none
            | some (chain, visited) =>
              some (ptHeaderLine col_name start_view :: chain, visited)

/-- The parent loop of `trace_column` at a given fuel. -/
def traceParentsFuel (fuel : Nat) (nf : Bool) (col_name start_view : String)
    (obj_def_map : ObjDefMap) (graph : Graph) :
    List String → Visited → Option (List String × Visited) :=
  traceParentsAux (fun prt vis => traceFuel fuel col_name prt obj_def_map graph vis)
    nf col_name start_view

/-- Fuel that always suffices for `traceFuel` (proved below). -/
def traceBound (graph : Graph) : Nat := graph.length + 2

/-- `trace_column` with an explicit visited set: the total function obtained
by running `traceFuel` with sufficient fuel. Returns the chain and the final
visited set. -/
def trace_column (col_name start_view : String) (obj_def_map : ObjDefMap)
    (graph : Graph) (visited : Visited) : List String × Visited :=
  (traceFuel (traceBound graph) col_name start_view obj_def_map graph
    visited).getD ([], visited)

/-- A top-level call of `trace_column` (Python's default `visited=None` seeds
a fresh empty set). -/
def trace_top (col_name start_view : String) (obj_def_map : ObjDefMap)
    (graph : Graph) : List String :=
  (trace_column col_name start_view obj_def_map graph []).1

/-- The calculation-step detector of `condense_if_no_calc`:
`"Calculation in" in line`. -/
def hasCalcMarker (line : String) : Bool :=
  containsSubstr line "Calculation in"

/-- The base-object-step detector of `condense_if_no_calc`:
`"Reached base object" in line`. -/
def hasBaseMarker (line : String) : Bool :=
  containsSubstr line "Reached base object"

/-- The literal part of the regex `Reached base object '([^']+)'`. -/
def basePat : List Char := "Reached base object '".toList

/-- The `([^']+)'` part of the regex: the characters before the first quote,
`none` when no quote follows or the capture would be empty. -/
def captureToQuote : List Char → Option (List Char)
  | [] => none
  | c :: rest =>
    if c = '\'' then some []
    else (captureToQuote rest).map (fun g => c :: g)

/-- Leftmost match of `re.search(r"Reached base object '([^']+)'", line)`,
returning the captured group: at each position, the literal prefix must match
and be followed by at least one non-quote character and a closing quote;
otherwise the search moves one character right. -/
def reSearchBase : List Char → Option (List Char)
  | [] => none
  | c :: rest =>
    if basePat.isPrefixOf (c :: rest) then
      match captureToQuote ((c :: rest).drop basePat.length) with
      | some [] => reSearchBase rest
      | some g => some g
      | none => reSearchBase rest
    else
      reSearchBase rest

/-- The synthetic condensed line
`Column '{col}' => same as '{base}' (no calculation)`. -/
def condensedLine (col_name base_name : String) : String :=
  "Column '" ++ col_name ++ "' => same as '" ++ base_name ++ "' (no calculation)"

/-- `condense_if_no_calc(chain_lines, col_name)`: if no line contains
`"Calculation in"`, find the last line containing `"Reached base object"`,
extract the quoted base-object name with the regex model, and replace the
whole chain with the single synthetic line; return the chain unchanged when
any step is a calculation, no base line exists, or the extraction fails. -/
def condense_if_no_calc (chain_lines : List String) (col_name : String) :
    List String :=
  if chain_lines.any hasCalcMarker then chain_lines
  else
    match chain_lines.reverse.find? hasBaseMarker with
    | none => chain_lines
    | some base_obj_line =>
      match reSearchBase base_obj_line.toList with
      | none => chain_lines
      | some g => [condensedLine col_name (String.mk g)]

/-! Supporting lemmas: the visited set only grows, and `graph.length + 2`
fuel always suffices for `traceFuel`. -/

/-- One-step unfolding of `traceFuel` at positive fuel. -/
theorem traceFuel_succ (fuel : Nat) (col_name start_view : String)
    (obj_def_map : ObjDefMap) (graph : Graph) (visited : Visited) :
    traceFuel (fuel + 1) col_name start_view obj_def_map graph visited =
      (let key := (pyLower start_view, pyLower col_name)
       if key ∈ visited then some ([], visited)
       else
         let visited := key :: visited
         let view_sql := lookupDef obj_def_map start_view
         if view_sql = "" then some ([baseNoDefLine start_view], visited)
         else
           match parse_column_expression view_sql col_name with
           | (none, _) =>
             let parents := parentsOf graph start_view
             if parents = [] then some ([notFoundBaseLine col_name start_view], visited)
             else
               match traceParentsFuel fuel true col_name start_view obj_def_map
                   graph parents visited with
               | none => none
               | some (chain, visited) =>
                 some (if chain = [] then [nfFallbackLine col_name start_view]
                       else chain, visited)
           | (some true, snippet) =>
             some ([calcLine start_view snippet], visited)
           | (some false, _) =>
             let parents := parentsOf graph start_view
             if parents = [] then
               some ([ptLine col_name start_view, baseNoParentLine start_view], visited)
             else
               match traceParentsFuel fuel false col_name start_view obj_def_map
                   graph parents visited with
               | none => none
               | some (chain, visited) =>
                 some (ptHeaderLine col_name start_view :: chain, visited)) := rfl

/-- The lowercased keys (potential parents) of the dependency graph. -/
def keysLow (graph : Graph) : List String :=
  graph.map (fun pc => pyLower pc.1)

/-- The number of graph keys whose `(key, column)` pair is not yet visited. -/
def freeKeyCount (col_name : String) (graph : Graph) (visited : Visited) : Nat :=
  ((keysLow graph).toFinset.filter
    (fun p => (p, pyLower col_name) ∉ visited)).card

/-- Like `freeKeyCount`, but counting the starting object as well. -/
def freeCount (col_name start_view : String) (graph : Graph)
    (visited : Visited) : Nat :=
  ((insert (pyLower start_view) (keysLow graph).toFinset).filter
    (fun p => (p, pyLower col_name) ∉ visited)).card

theorem parentsOf_mem_keysLow {graph : Graph} {v p : String}
    (hp : p ∈ parentsOf graph v) : pyLower p ∈ keysLow graph := by
  simp only [parentsOf, keysLow, List.mem_map, List.mem_filter] at hp ⊢
  obtain ⟨pc, ⟨hmem, _⟩, hfst⟩ := hp
  exact ⟨pc, hmem, by rw [hfst]⟩

theorem traceParentsAux_visited_mono
    {recur : String → Visited → Option (List String × Visited)}
    (hrec : ∀ p V c V', recur p V = some (c, V') → V ⊆ V')
    (nf : Bool) (col_name start_view : String) :
    ∀ ps (V : Visited) c V',
      traceParentsAux recur nf col_name start_view ps V = some (c, V') → V ⊆ V' := by
  intro ps
  induction ps with
  | nil =>
    intro V c V' h
    simp only [traceParentsAux, Option.some.injEq, Prod.mk.injEq] at h
    obtain ⟨-, h2⟩ := h
    subst h2
    exact List.Subset.refl V
  | cons prt rest ih =>
    intro V c V' h
    simp only [traceParentsAux] at h
    cases hr : recur prt V with
    | none => rw [hr] at h; exact absurd h (by simp)
    | some r =>
      obtain ⟨sub, V₁⟩ := r
      rw [hr] at h
      dsimp only at h
      by_cases hs : sub = []
      · rw [if_pos hs] at h
        exact (hrec prt V sub V₁ hr).trans (ih V₁ c V' h)
      · rw [if_neg hs] at h
        simp only [Option.some.injEq, Prod.mk.injEq] at h
        obtain ⟨-, h2⟩ := h
        subst h2
        exact hrec prt V sub V₁ hr

theorem traceFuel_visited_mono :
    ∀ fuel col_name start_view obj_def_map graph (V : Visited) c V',
      traceFuel fuel col_name start_view obj_def_map graph V = some (c, V') →
        V ⊆ V' := by
  intro fuel
  induction fuel with
  | zero => intro _ _ _ _ V c V' h; exact absurd h (by simp [traceFuel])
  | succ fuel ih =>
    intro col_name start_view obj_def_map graph V c V' h
    rw [traceFuel_succ] at h
    dsimp only at h
    set key := (pyLower start_view, pyLower col_name) with hkey
    have hsub : V ⊆ key :: V := List.subset_cons_self key V
    have hauxmono := @traceParentsAux_visited_mono
      (fun prt vis => traceFuel fuel col_name prt obj_def_map graph vis)
      (fun p Vx c' V'' hx => ih col_name p obj_def_map graph Vx c' V'' hx)
    by_cases hv : key ∈ V
    · rw [if_pos hv] at h
      simp only [Option.some.injEq, Prod.mk.injEq] at h
      obtain ⟨-, h2⟩ := h
      subst h2
      exact List.Subset.refl V
    · rw [if_neg hv] at h
      by_cases hsql : lookupDef obj_def_map start_view = ""
      · rw [if_pos hsql] at h
        simp only [Option.some.injEq, Prod.mk.injEq] at h
        obtain ⟨-, h2⟩ := h
        subst h2
        exact hsub
      · rw [if_neg hsql] at h
        rcases hp : parse_column_expression (lookupDef obj_def_map start_view) col_name
          with ⟨fc, snippet⟩
        rw [hp] at h
        match fc with
        | none =>
          dsimp only at h
          by_cases hpar : parentsOf graph start_view = []
          · rw [if_pos hpar] at h
            simp only [Option.some.injEq, Prod.mk.injEq] at h
            obtain ⟨-, h2⟩ := h
            subst h2
            exact hsub
          · rw [if_neg hpar] at h
            cases haux : traceParentsFuel fuel true col_name start_view obj_def_map
                graph (parentsOf graph start_view) (key :: V) with
            | none => rw [haux] at h; exact absurd h (by simp)
            | some r =>
              obtain ⟨chain, V₁⟩ := r
              rw [haux] at h
              dsimp only at h
              simp only [Option.some.injEq, Prod.mk.injEq] at h
              obtain ⟨-, h2⟩ := h
              subst h2
              exact hsub.trans
                (hauxmono true col_name start_view (parentsOf graph start_view)
                  (key :: V) chain V₁ haux)
        | some true =>
          dsimp only at h
          simp only [Option.some.injEq, Prod.mk.injEq] at h
          obtain ⟨-, h2⟩ := h
          subst h2
          exact hsub
        | some false =>
          dsimp only at h
          by_cases hpar : parentsOf graph start_view = []
          · rw [if_pos hpar] at h
            simp only [Option.some.injEq, Prod.mk.injEq] at h
            obtain ⟨-, h2⟩ := h
            subst h2
            exact hsub
          · rw [if_neg hpar] at h
            cases haux : traceParentsFuel fuel false col_name start_view obj_def_map
                graph (parentsOf graph start_view) (key :: V) with
            | none => rw [haux] at h; exact absurd h (by simp)
            | some r =>
              obtain ⟨chain, V₁⟩ := r
              rw [haux] at h
              dsimp only at h
              simp only [Option.some.injEq, Prod.mk.injEq] at h
              obtain ⟨-, h2⟩ := h
              subst h2
              exact hsub.trans
                (hauxmono false col_name start_view (parentsOf graph start_view)
                  (key :: V) chain V₁ haux)

theorem freeKeyCount_le_of_subset (col_name : String) (graph : Graph)
    {V V' : Visited} (hVV : V ⊆ V') :
    freeKeyCount col_name graph V' ≤ freeKeyCount col_name graph V := by
  apply Finset.card_le_card
  intro x hx
  simp only [Finset.mem_filter] at hx ⊢
  exact ⟨hx.1, fun hmem => hx.2 (hVV hmem)⟩

theorem freeCount_eq_freeKeyCount (col_name p : String) (graph : Graph)
    (V : Visited) (hp : pyLower p ∈ keysLow graph) :
    freeCount col_name p graph V = freeKeyCount col_name graph V := by
  unfold freeCount freeKeyCount
  rw [Finset.insert_eq_self.mpr (List.mem_toFinset.mpr hp)]

theorem freeKeyCount_cons_lt (col_name start_view : String) (graph : Graph)
    (V : Visited) (hv : (pyLower start_view, pyLower col_name) ∉ V) :
    freeKeyCount col_name graph ((pyLower start_view, pyLower col_name) :: V)
      < freeCount col_name start_view graph V := by
  set slow := pyLower start_view
  set clow := pyLower col_name
  set A := (insert slow (keysLow graph).toFinset).filter (fun p => (p, clow) ∉ V)
    with hA
  have hslowA : slow ∈ A := by
    rw [hA]
    exact Finset.mem_filter.mpr ⟨Finset.mem_insert_self slow _, hv⟩
  have hBsub : (keysLow graph).toFinset.filter
      (fun p => (p, clow) ∉ (slow, clow) :: V) ⊆ A.erase slow := by
    intro x hx
    simp only [Finset.mem_filter, List.mem_cons, not_or] at hx
    obtain ⟨hxk, hxne, hxV⟩ := hx
    refine Finset.mem_erase.mpr ⟨?_, Finset.mem_filter.mpr
      ⟨Finset.mem_insert_of_mem hxk, hxV⟩⟩
    intro hxs
    exact hxne (by rw [hxs])
  calc ((keysLow graph).toFinset.filter
      (fun p => (p, clow) ∉ (slow, clow) :: V)).card
      ≤ (A.erase slow).card := Finset.card_le_card hBsub
    _ < A.card := Finset.card_erase_lt_of_mem hslowA

theorem traceParentsAux_isSome (fuel : Nat) (nf : Bool)
    (col_name start_view : String) (obj_def_map : ObjDefMap) (graph : Graph)
    (hrec : ∀ p V, freeCount col_name p graph V < fuel →
      ∃ r, traceFuel fuel col_name p obj_def_map graph V = some r) :
    ∀ ps (V : Visited), (∀ p ∈ ps, pyLower p ∈ keysLow graph) →
      freeKeyCount col_name graph V < fuel →
      ∃ r, traceParentsFuel fuel nf col_name start_view obj_def_map graph ps V
        = some r := by
  intro ps
  induction ps with
  | nil => intro V _ _; exact ⟨([], V), rfl⟩
  | cons prt rest ih =>
    intro V hps hV
    have hpk : pyLower prt ∈ keysLow graph := hps prt (List.mem_cons_self prt rest)
    obtain ⟨⟨sub, V₁⟩, hr⟩ := hrec prt V
      (by rw [freeCount_eq_freeKeyCount col_name prt graph V hpk]; exact hV)
    show ∃ r, traceParentsAux _ nf col_name start_view (prt :: rest) V = some r
    simp only [traceParentsAux]
    rw [hr]
    dsimp only
    by_cases hs : sub = []
    · rw [if_pos hs]
      have hV₁ : freeKeyCount col_name graph V₁ < fuel :=
        lt_of_le_of_lt
          (freeKeyCount_le_of_subset col_name graph
            (traceFuel_visited_mono fuel col_name prt obj_def_map graph V sub V₁ hr))
          hV
      exact ih V₁ (fun p hp => hps p (List.mem_cons_of_mem prt hp)) hV₁
    · rw [if_neg hs]
      exact ⟨_, rfl⟩

theorem traceFuel_isSome_nonempty :
    ∀ fuel col_name start_view obj_def_map graph (V : Visited),
      freeCount col_name start_view graph V < fuel →
      ∃ c V', traceFuel fuel col_name start_view obj_def_map graph V = some (c, V')
        ∧ ((pyLower start_view, pyLower col_name) ∉ V → c ≠ []) := by
  intro fuel
  induction fuel with
  | zero => intro _ _ _ _ _ h; exact absurd h (Nat.not_lt_zero _)
  | succ fuel ih =>
    intro col_name start_view obj_def_map graph V hfree
    rw [traceFuel_succ]
    dsimp only
    set key := (pyLower start_view, pyLower col_name) with hkey
    by_cases hv : key ∈ V
    · rw [if_pos hv]
      exact ⟨[], V, rfl, fun hnv => absurd hv hnv⟩
    · rw [if_neg hv]
      have hloop : ∀ nf, ∃ r, traceParentsFuel fuel nf col_name start_view
          obj_def_map graph (parentsOf graph start_view) (key :: V) = some r := by
        intro nf
        apply traceParentsAux_isSome fuel nf col_name start_view obj_def_map graph
        · intro p Vx hx
          obtain ⟨c, V', hsome, -⟩ := ih col_name p obj_def_map graph Vx hx
          exact ⟨(c, V'), hsome⟩
        · intro p hp
          exact parentsOf_mem_keysLow hp
        · calc freeKeyCount col_name graph (key :: V)
              < freeCount col_name start_view graph V :=
                freeKeyCount_cons_lt col_name start_view graph V hv
            _ ≤ fuel := Nat.lt_succ_iff.mp hfree
      by_cases hsql : lookupDef obj_def_map start_view = ""
      · rw [if_pos hsql]
        exact ⟨[baseNoDefLine start_view], key :: V, rfl, fun _ => by simp⟩
      · rw [if_neg hsql]
        rcases hp : parse_column_expression (lookupDef obj_def_map start_view) col_name
          with ⟨fc, snippet⟩
        match fc with
        | none =>
          dsimp only
          by_cases hpar : parentsOf graph start_view = []
          · rw [if_pos hpar]
            exact ⟨[notFoundBaseLine col_name start_view], key :: V, rfl, fun _ => by simp⟩
          · rw [if_neg hpar]
            obtain ⟨⟨chain, V₁⟩, hr⟩ := hloop true
            rw [hr]
            dsimp only
            by_cases hc : chain = []
            · rw [if_pos hc]
              exact ⟨[nfFallbackLine col_name start_view], V₁, rfl, fun _ => by simp⟩
            · rw [if_neg hc]
              exact ⟨chain, V₁, rfl, fun _ => hc⟩
        | some true =>
          dsimp only
          exact ⟨[calcLine start_view snippet], key :: V, rfl, fun _ => by simp⟩
        | some false =>
          dsimp only
          by_cases hpar : parentsOf graph start_view = []
          · rw [if_pos hpar]
            exact ⟨[ptLine col_name start_view, baseNoParentLine start_view],
              key :: V, rfl, fun _ => by simp⟩
          · rw [if_neg hpar]
            obtain ⟨⟨chain, V₁⟩, hr⟩ := hloop false
            rw [hr]
            dsimp only
            exact ⟨ptHeaderLine col_name start_view :: chain, V₁, rfl, fun _ => by simp⟩

theorem freeCount_lt_traceBound (col_name start_view : String) (graph : Graph)
    (V : Visited) : freeCount col_name start_view graph V < traceBound graph := by
  unfold freeCount traceBound
  calc ((insert (pyLower start_view) (keysLow graph).toFinset).filter
        (fun p => (p, pyLower col_name) ∉ V)).card
      ≤ (insert (pyLower start_view) (keysLow graph).toFinset).card :=
        Finset.card_filter_le _ _
    _ ≤ (keysLow graph).toFinset.card + 1 := Finset.card_insert_le _ _
    _ ≤ (keysLow graph).length + 1 :=
        Nat.add_le_add_right (keysLow graph).toFinset_card_le 1
    _ = graph.length + 1 := by rw [keysLow, List.length_map]
    _ < graph.length + 2 := Nat.lt_succ_self _

/-- C1: for every column name, starting object, object-definition map and
dependency graph — including graphs with a cycle through the starting
object — the top-level `trace_column` call with a fresh empty visited set
terminates (the embedding runs `traceFuel` at the provably sufficient fuel
`graph.length + 2`) and returns a non-empty chain. -/
theorem C1_trace_top_terminates_nonempty (col_name start_view : String)
    (obj_def_map : ObjDefMap) (graph : Graph) :
    trace_top col_name start_view obj_def_map graph ≠ [] := by
  obtain ⟨c, V', hsome, hne⟩ := traceFuel_isSome_nonempty (traceBound graph)
    col_name start_view obj_def_map graph []
    (freeCount_lt_traceBound col_name start_view graph [])
  unfold trace_top trace_column
  rw [hsome]
  exact hne (List.not_mem_nil _)

/-- C2 counterexample: classifying column `total` against
`SELECT a+b AS total FROM t` does not yield the Calculation result — the
matched expression `a+b AS total` contains none of the fixed calculation
markers, so `found_calc` is not `True`. -/
theorem C2_counterexample_not_calculation :
    (parse_column_expression "SELECT a+b AS total FROM t" "total").1 ≠ some true := by
  decide

/-- C2 amended: classifying column `total` against
`SELECT a+b AS total FROM t` yields the PassThrough result
(`found_calc = False`) with the matched snippet `a+b AS total`. -/
theorem C2_amended_passthrough :
    parse_column_expression "SELECT a+b AS total FROM t" "total"
      = (some false, "a+b AS total") := by decide

/-- C3: classifying column `total` against `SELECT a AS total FROM t` yields
the PassThrough result (`found_calc = False`), because the matched expression
`a AS total` contains none of the fixed calculation markers. -/
theorem C3_bare_alias_passthrough :
    parse_column_expression "SELECT a AS total FROM t" "total"
      = (some false, "a AS total") := by decide

/-- C4 counterexample: in the end-to-end scenario, tracing column `id` on
`v_orders_calc` yields no pass-through step at all (the column has no
`AS id` alias, so the classifier reports NotFound and the trace goes through
the not-explicitly-found branch), contradicting the claimed
`[PassThrough in v_orders_calc, BaseObjectReached orders]` chain shape. -/
theorem C4_counterexample_no_passthrough_step :
    ((trace_top "id" "v_orders_calc"
        [("v_orders_calc", "SELECT id, SUM(amount) AS total FROM orders GROUP BY id")]
        [("orders", ["v_orders_calc"])]).any
      (fun l => containsSubstr l "pass-through")) = false
    ∧ (trace_top "id" "v_orders_calc"
        [("v_orders_calc", "SELECT id, SUM(amount) AS total FROM orders GROUP BY id")]
        [("orders", ["v_orders_calc"])]).length = 2 := by decide

/-- C4 amended: in the end-to-end scenario, tracing `total` yields exactly one
Calculation step with snippet `SUM(amount) AS total`; tracing `id` yields a
not-explicitly-found step pointing at parent `orders` followed by a
base-object-reached step for `orders`, which condenses to the single step
stating that `id` is the same as base object `orders`. -/
theorem C4_amended_end_to_end :
    trace_top "total" "v_orders_calc"
      [("v_orders_calc", "SELECT id, SUM(amount) AS total FROM orders GROUP BY id")]
      [("orders", ["v_orders_calc"])]
      = ["* Calculation in 'v_orders_calc': SUM(amount) AS total"]
    ∧ trace_top "id" "v_orders_calc"
      [("v_orders_calc", "SELECT id, SUM(amount) AS total FROM orders GROUP BY id")]
      [("orders", ["v_orders_calc"])]
      = ["'id' not explicitly in 'v_orders_calc', check parent 'orders':",
         "* Reached base object 'orders' (no SQL definition)."]
    ∧ condense_if_no_calc
      (trace_top "id" "v_orders_calc"
        [("v_orders_calc", "SELECT id, SUM(amount) AS total FROM orders GROUP BY id")]
        [("orders", ["v_orders_calc"])]) "id"
      = ["Column 'id' => same as 'orders' (no calculation)"] := by decide

/-- C9: `trace_column` is deterministic across independent top-level
invocations — the embedding's top-level call takes only the four inputs and
seeds a fresh empty visited set (Python's `visited=None` default), so two
invocations with the same inputs return identical chains and no visited
state flows between them. -/
theorem C9_trace_deterministic (col_name start_view : String)
    (obj_def_map : ObjDefMap) (graph : Graph) :
    trace_top col_name start_view obj_def_map graph
      = (trace_column col_name start_view obj_def_map graph []).1
    ∧ trace_top col_name start_view obj_def_map graph
      = trace_top col_name start_view obj_def_map graph :=
  ⟨rfl, rfl⟩

/-- C5: whenever the classifier returns Calculation for the column against the
starting object's SQL definition, `trace_column` terminates immediately with a
chain of exactly one Calculation step carrying the matched snippet, and the
visited set gains only the starting object's key — no parent is visited or
traced further upstream. -/
theorem C5_calculation_is_terminal (col_name start_view : String)
    (obj_def_map : ObjDefMap) (graph : Graph) (visited : Visited)
    (snippet : String)
    (hv : (pyLower start_view, pyLower col_name) ∉ visited)
    (hsql : lookupDef obj_def_map start_view ≠ "")
    (hparse : parse_column_expression (lookupDef obj_def_map start_view) col_name
      = (some true, snippet)) :
    trace_column col_name start_view obj_def_map graph visited
      = ([calcLine start_view snippet],
         (pyLower start_view, pyLower col_name) :: visited) := by
  unfold trace_column
  rw [show traceBound graph = (graph.length + 1) + 1 from rfl, traceFuel_succ]
  dsimp only
  rw [if_neg hv, if_neg hsql, hparse]
  rfl

/-- C5 witness: a concrete calculation view, with every hypothesis discharged
at the concrete input. -/
theorem C5_witness :
    parse_column_expression
      (lookupDef [("v", "SELECT SUM(x) AS t FROM b")] "v") "t"
      = (some true, "SUM(x) AS t")
    ∧ trace_column "t" "v" [("v", "SELECT SUM(x) AS t FROM b")] [("b", ["v"])] []
      = (["* Calculation in 'v': SUM(x) AS t"], [("v", "t")]) :=
  ⟨by decide,
   (C5_calculation_is_terminal "t" "v" [("v", "SELECT SUM(x) AS t FROM b")]
      [("b", ["v"])] [] "SUM(x) AS t" (by decide) (by decide) (by decide)).trans
     (by decide)⟩

/-- C10: in the pass-through branch, when the starting object has parents but
the parent loop returns the empty chain (every `(parent, column)` pair was
already visited, as happens on a cycle), `trace_column` returns the
one-element chain holding only the pass-through header step — no parent note
and no terminal base-object or not-found step. -/
theorem C10_passthrough_header_only (col_name start_view : String)
    (obj_def_map : ObjDefMap) (graph : Graph) (V V' : Visited)
    (hv : (pyLower start_view, pyLower col_name) ∉ V)
    (hsql : lookupDef obj_def_map start_view ≠ "")
    (hparse : (parse_column_expression (lookupDef obj_def_map start_view)
      col_name).1 = some false)
    (hpar : parentsOf graph start_view ≠ [])
    (hloop : traceParentsFuel (graph.length + 1) false col_name start_view
      obj_def_map graph (parentsOf graph start_view)
      ((pyLower start_view, pyLower col_name) :: V) = some ([], V')) :
    trace_column col_name start_view obj_def_map graph V
      = ([ptHeaderLine col_name start_view], V') := by
  unfold trace_column
  rw [show traceBound graph = (graph.length + 1) + 1 from rfl, traceFuel_succ]
  dsimp only
  rw [if_neg hv, if_neg hsql]
  rcases hp : parse_column_expression (lookupDef obj_def_map start_view) col_name
    with ⟨fc, sn⟩
  rw [hp] at hparse
  simp only at hparse
  subst hparse
  dsimp only
  rw [if_neg hpar, hloop]
  rfl

/-- C10 witness: a two-object cycle-style situation where the only parent is
already visited, with every hypothesis discharged at the concrete input. -/
theorem C10_witness :
    traceParentsFuel 2 false "x" "B" [("B", "SELECT a AS x FROM A")]
      [("A", ["B"])] ["A"] [("b", "x"), ("a", "x")]
      = some ([], [("b", "x"), ("a", "x")])
    ∧ trace_column "x" "B" [("B", "SELECT a AS x FROM A")] [("A", ["B"])]
      [("a", "x")]
      = (["Column 'x' pass-through in 'B' => search its parent(s)"],
         [("b", "x"), ("a", "x")]) :=
  ⟨by decide,
   (C10_passthrough_header_only "x" "B" [("B", "SELECT a AS x FROM A")]
      [("A", ["B"])] [("a", "x")] [("b", "x"), ("a", "x")] (by decide) (by decide)
      (by decide) (by decide) (by decide)).trans (by decide)⟩

/-- C6: the parent loop of `trace_column` tries the parents in order and
accepts the first parent whose recursive trace yields a non-empty chain,
prefixing the branch's note identifying that parent; the remaining parents
are never consulted (the conclusion holds for every `rest`). A parent whose
recursive trace is empty is skipped, threading its visited set to the next
parent. Parts three and four show that the NotFound branch and the
pass-through branch of `trace_column` consume the loop result in exactly this
way. -/
theorem C6_first_parent_wins (fuel : Nat) (nf : Bool)
    (col_name start_view prt : String) (rest : List String)
    (obj_def_map : ObjDefMap) (graph : Graph) (V : Visited) :
    (∀ c V₂, traceFuel fuel col_name prt obj_def_map graph V = some (c, V₂) →
      c ≠ [] →
      traceParentsFuel fuel nf col_name start_view obj_def_map graph
          (prt :: rest) V
        = some (parentNoteLine nf col_name start_view prt :: c, V₂))
    ∧ (∀ V₂, traceFuel fuel col_name prt obj_def_map graph V = some ([], V₂) →
      traceParentsFuel fuel nf col_name start_view obj_def_map graph
          (prt :: rest) V
        = traceParentsFuel fuel nf col_name start_view obj_def_map graph rest V₂)
    ∧ (∀ c V₂, (pyLower start_view, pyLower col_name) ∉ V →
      lookupDef obj_def_map start_view ≠ "" →
      (parse_column_expression (lookupDef obj_def_map start_view) col_name).1
        = none →
      parentsOf graph start_view = prt :: rest →
      traceParentsFuel fuel true col_name start_view obj_def_map graph
          (prt :: rest) ((pyLower start_view, pyLower col_name) :: V)
        = some (c, V₂) →
      c ≠ [] →
      traceFuel (fuel + 1) col_name start_view obj_def_map graph V = some (c, V₂))
    ∧ (∀ c V₂, (pyLower start_view, pyLower col_name) ∉ V →
      lookupDef obj_def_map start_view ≠ "" →
      (parse_column_expression (lookupDef obj_def_map start_view) col_name).1
        = some false →
      parentsOf graph start_view = prt :: rest →
      traceParentsFuel fuel false col_name start_view obj_def_map graph
          (prt :: rest) ((pyLower start_view, pyLower col_name) :: V)
        = some (c, V₂) →
      traceFuel (fuel + 1) col_name start_view obj_def_map graph V
        = some (ptHeaderLine col_name start_view :: c, V₂)) := by
  refine ⟨?_, ?_, ?_, ?_⟩
  · intro c V₂ hr hc
    show traceParentsAux _ nf col_name start_view (prt :: rest) V = _
    simp only [traceParentsAux]
    rw [hr]
    dsimp only
    rw [if_neg hc]
  · intro V₂ hr
    show traceParentsAux _ nf col_name start_view (prt :: rest) V = _
    simp only [traceParentsAux]
    rw [hr]
    dsimp only
    rw [if_pos rfl]
    rfl
  · intro c V₂ hv hsql hparse hpars hloop hc
    rw [traceFuel_succ]
    dsimp only
    rw [if_neg hv, if_neg hsql]
    rcases hp : parse_column_expression (lookupDef obj_def_map start_view) col_name
      with ⟨fc, sn⟩
    rw [hp] at hparse
    simp only at hparse
    subst hparse
    dsimp only
    rw [hpars, if_neg (List.cons_ne_nil prt rest), hloop]
    dsimp only
    rw [if_neg hc]
  · intro c V₂ hv hsql hparse hpars hloop
    rw [traceFuel_succ]
    dsimp only
    rw [if_neg hv, if_neg hsql]
    rcases hp : parse_column_expression (lookupDef obj_def_map start_view) col_name
      with ⟨fc, sn⟩
    rw [hp] at hparse
    simp only at hparse
    subst hparse
    dsimp only
    rw [hpars, if_neg (List.cons_ne_nil prt rest), hloop]

/-- C6 witness: concrete instances for all four parts — a succeeding first
parent (its chain kept, the note prepended, the second parent discarded), a
skipped already-visited first parent, and the NotFound and pass-through
branches consuming the loop result — with every hypothesis discharged at the
concrete inputs. -/
theorem C6_witness :
    traceParentsFuel 1 false "c" "v" [("v", "SELECT a AS c FROM x")]
      [("p1", ["v"]), ("p2", ["v"])] ["p2", "p1"] [("p1", "c")]
      = some (["=> parent: 'p2'",
               "* Reached base object 'p2' (no SQL definition)."],
              [("p2", "c"), ("p1", "c")])
    ∧ traceParentsFuel 1 false "c" "v" [("v", "SELECT a AS c FROM x")]
      [("p1", ["v"]), ("p2", ["v"])] ["p1", "p2"] [("p1", "c")]
      = traceParentsFuel 1 false "c" "v" [("v", "SELECT a AS c FROM x")]
        [("p1", ["v"]), ("p2", ["v"])] ["p2"] [("p1", "c")]
    ∧ traceFuel 3 "d" "v" [("v", "SELECT a AS c FROM x")]
      [("p1", ["v"]), ("p2", ["v"])] []
      = some (["'d' not explicitly in 'v', check parent 'p1':",
               "* Reached base object 'p1' (no SQL definition)."],
              [("p1", "d"), ("v", "d")])
    ∧ traceFuel 3 "c" "v" [("v", "SELECT a AS c FROM x")]
      [("p1", ["v"]), ("p2", ["v"])] []
      = some (["Column 'c' pass-through in 'v' => search its parent(s)",
               "=> parent: 'p1'",
               "* Reached base object 'p1' (no SQL definition)."],
              [("p1", "c"), ("v", "c")]) :=
  ⟨((C6_first_parent_wins 1 false "c" "v" "p2" ["p1"]
      [("v", "SELECT a AS c FROM x")] [("p1", ["v"]), ("p2", ["v"])]
      [("p1", "c")]).1
      ["* Reached base object 'p2' (no SQL definition)."]
      [("p2", "c"), ("p1", "c")] (by decide) (by decide)).trans (by decide),
   (C6_first_parent_wins 1 false "c" "v" "p1" ["p2"]
      [("v", "SELECT a AS c FROM x")] [("p1", ["v"]), ("p2", ["v"])]
      [("p1", "c")]).2.1 [("p1", "c")] (by decide),
   ((C6_first_parent_wins 2 true "d" "v" "p1" ["p2"]
      [("v", "SELECT a AS c FROM x")] [("p1", ["v"]), ("p2", ["v"])] []).2.2.1
      ["'d' not explicitly in 'v', check parent 'p1':",
       "* Reached base object 'p1' (no SQL definition)."]
      [("p1", "d"), ("v", "d")]
      (by decide) (by decide) (by decide) (by decide) (by decide) (by decide)),
   (((C6_first_parent_wins 2 false "c" "v" "p1" ["p2"]
      [("v", "SELECT a AS c FROM x")] [("p1", ["v"]), ("p2", ["v"])] []).2.2.2
      ["=> parent: 'p1'", "* Reached base object 'p1' (no SQL definition)."]
      [("p1", "c"), ("v", "c")]
      (by decide) (by decide) (by decide) (by decide) (by decide)).trans
      (by decide))⟩

/-- C7 counterexample: tracing any column on a starting object whose name is
the empty string produces a genuine base-object-reached step naming the empty
string; that chain has no Calculation step and a BaseObjectReached step, yet
`condense_if_no_calc` returns it unchanged instead of a single synthetic
step — the quoted-name extraction `Reached base object '([^']+)'` fails on the
empty name. -/
theorem C7_counterexample_empty_base_name :
    trace_top "c" "" [] [] = [baseNoDefLine ""]
    ∧ (trace_top "c" "" [] []).any hasCalcMarker = false
    ∧ (trace_top "c" "" [] []).any hasBaseMarker = true
    ∧ condense_if_no_calc (trace_top "c" "" [] []) "c" = trace_top "c" "" [] []
    ∧ condense_if_no_calc (trace_top "c" "" [] []) "c"
      ≠ [condensedLine "c" ""] := by decide

/-- C7 amended: `condense_if_no_calc` returns the chain unchanged when some
line carries the calculation marker, and also when no line carries the
base-object marker; when no line carries the calculation marker and some line
carries the base-object marker, it condenses to the single synthetic step
naming the base object captured from the LAST base-object line — provided the
quoted-name extraction succeeds on that line; when the extraction fails the
chain is returned unchanged. -/
theorem C7_condense_characterisation (chain_lines : List String)
    (col_name : String) :
    (chain_lines.any hasCalcMarker = true →
      condense_if_no_calc chain_lines col_name = chain_lines)
    ∧ (chain_lines.reverse.find? hasBaseMarker = none →
      condense_if_no_calc chain_lines col_name = chain_lines)
    ∧ (∀ line, chain_lines.any hasCalcMarker = false →
      chain_lines.reverse.find? hasBaseMarker = some line →
      (∀ g, reSearchBase line.toList = some g →
        condense_if_no_calc chain_lines col_name
          = [condensedLine col_name (String.mk g)])
      ∧ (reSearchBase line.toList = none →
        condense_if_no_calc chain_lines col_name = chain_lines)) := by
  refine ⟨?_, ?_, ?_⟩
  · intro h
    unfold condense_if_no_calc
    rw [if_pos h]
  · intro h
    unfold condense_if_no_calc
    by_cases hcalc : chain_lines.any hasCalcMarker
    · rw [if_pos hcalc]
    · rw [if_neg hcalc, h]
  · intro line hcalc hfind
    constructor
    · intro g hg
      unfold condense_if_no_calc
      rw [if_neg (by rw [hcalc]; exact Bool.false_ne_true), hfind]
      dsimp only
      rw [hg]
    · intro hg
      unfold condense_if_no_calc
      rw [if_neg (by rw [hcalc]; exact Bool.false_ne_true), hfind]
      dsimp only
      rw [hg]

/-- C7 witness: concrete instances for each part — a chain with a calculation
step kept unchanged, a chain without base-object line kept unchanged, a
condensable chain replaced by the synthetic step naming the last base object,
and a base line with an empty quoted name kept unchanged — with every
hypothesis discharged at the concrete inputs. -/
theorem C7_witness :
    condense_if_no_calc ["* Calculation in 'v': SUM(x) AS t"] "t"
      = ["* Calculation in 'v': SUM(x) AS t"]
    ∧ condense_if_no_calc ["zzz"] "t" = ["zzz"]
    ∧ condense_if_no_calc
      ["Column 'id' pass-through in 'v1' => search its parent(s)",
       "* Reached base object 'orders' (no parent)."] "id"
      = ["Column 'id' => same as 'orders' (no calculation)"]
    ∧ condense_if_no_calc ["* Reached base object '' (no SQL definition)."] "c"
      = ["* Reached base object '' (no SQL definition)."] :=
  ⟨(C7_condense_characterisation ["* Calculation in 'v': SUM(x) AS t"] "t").1
      (by decide),
   (C7_condense_characterisation ["zzz"] "t").2.1 (by decide),
   (((C7_condense_characterisation
      ["Column 'id' pass-through in 'v1' => search its parent(s)",
       "* Reached base object 'orders' (no parent)."] "id").2.2
      "* Reached base object 'orders' (no parent)." (by decide) (by decide)).1
      "orders".toList (by decide)).trans (by decide),
   ((C7_condense_characterisation
      ["* Reached base object '' (no SQL definition)."] "c").2.2
      "* Reached base object '' (no SQL definition)." (by decide) (by decide)).2
      (by decide)⟩

/-- C8: the classifier is total (a Lean function) and, whenever no grouped
sub-expression of the projection list carries the alias marker
`as <column_name>` — in particular for the empty SQL text, which yields no
projection at all — the result is NotFound with an empty snippet. -/
theorem C8_classifier_notfound_total (view_sql col_name : String) :
    parse_column_expression "" col_name = (none, "")
    ∧ ((∀ g ∈ projectionGroups view_sql, hasAliasMarker g col_name = false) →
      parse_column_expression view_sql col_name = (none, "")) := by
  constructor
  · rfl
  · intro h
    unfold parse_column_expression
    rw [List.find?_eq_none.mpr (fun x hx => by rw [h x hx]; exact Bool.false_ne_true)]

/-- C8 witness: a SQL text lacking any alias for the requested column, with
the hypothesis discharged at the concrete input. -/
theorem C8_witness :
    (∀ g ∈ projectionGroups "SELECT a AS b FROM t",
      hasAliasMarker g "missing_col" = false)
    ∧ parse_column_expression "SELECT a AS b FROM t" "missing_col" = (none, "") :=
  ⟨by decide,
   (C8_classifier_notfound_total "SELECT a AS b FROM t" "missing_col").2
     (by decide)⟩

end ERD
